import Mathlib

/-!
Verification development for the django-http-proxy repository
(single source file: httpproxy/views.py).

The definitions below are a shallow embedding of the proxy request
pipeline of httpproxy/views.py: the request normalizer
(HttpProxy.normalize_request, lines 91-104), the URL composer
(HttpProxy.get_full_url, lines 154-161), the response rewriter
(REWRITE_REGEX, line 17, and HttpProxy.rewrite_response, lines 106-119),
the recorder gateway (HttpProxy.play / HttpProxy.record /
HttpProxy.get_recorder, lines 121-140), the upstream dispatcher
(HttpProxy.get / get_response / create_request, lines 142-183) and the
controller (HttpProxy.dispatch, lines 73-89).

Python byte strings are modelled as Lean String values (the library is
written against the python-2 compatible django.utils.six layer, where
str is the byte-string type); header maps and query maps are modelled as
ordered association lists, matching the ordered dictionaries used by
Django.  Python exceptions are modelled with Except and an explicit
error type.  External collaborators (the requests transport, the
ProxyRecorder storage backend and Django urlencode) are modelled as
oracle parameters or, where the spec fixes their contract, as
definitions marked as modelled from the spec.
-/

namespace HttpProxyModel

/-- Python-level errors that the embedded code can raise.  Each
constructor names the concrete exception the interpreter would raise at
the corresponding line of httpproxy/views.py. -/
inductive PyError where
  /-- line 139: urllib.parse is a module object, calling it raises
  TypeError: module object is not callable. -/
  | typeErrorModuleNotCallable
  /-- line 172: create_request is invoked without its required
  positional argument method, raising TypeError. -/
  | typeErrorMissingMethodArg
  /-- lines 181-182: tuple-unpacking a header key that does not have
  exactly two characters raises ValueError. -/
  | valueErrorHeaderUnpack
  /-- line 180: response.headers with no content-type entry raises
  KeyError. -/
  | keyErrorContentType
  /-- RequestNotRecorded (an Http404 subclass) raised by the recorder
  when playback finds no recorded pair (views.py docstring, lines
  56-59). -/
  | http404NotRecorded
deriving DecidableEq

/-- Model of the mutable per-request Django HttpRequest object: the
fields of the request that httpproxy/views.py reads or writes.
request.META is represented by its two fields the code touches,
PATH_INFO and CONTENT_TYPE. -/
structure DjangoRequest where
  method : String
  path : String
  path_info : String
  meta_path_info : String
  /-- request.GET as an ordered list of key-value pairs. -/
  query : List (String × String)
  headers : List (String × String)
  body : String
  meta_content_type : Option String
deriving DecidableEq

/-- Model of a django.http.HttpResponse as produced by the proxy:
status code, ordered header list, and response.content. -/
structure DjHttpResponse where
  status : Nat
  headers : List (String × String)
  content : String
deriving DecidableEq

/-- Model of the raw reply of the external transport (a
requests.Response): status_code, headers, content. -/
structure UpstreamReply where
  status_code : Nat
  headers : List (String × String)
  content : String
deriving DecidableEq

/-- Configuration attributes of the HttpProxy view class (lines 38-69):
base_url, mode and rewrite.  mode is kept as Option String because the
source compares it against the string literals "play" and "record"
(lines 77 and 85) and defaults to None. -/
structure HttpProxyConfig where
  base_url : String
  mode : Option String
  rewrite : Bool
deriving DecidableEq

/-! ### Request normalizer (normalize_request, lines 91-104) -/

/-- The test self.url.startswith(slash) of line 99, embedded as a test
on the first character. -/
def startsWithSlash (url : String) : Bool :=
  match url.data with
  | '/' :: _ => true
  | _ => false

/-- Lines 99-100: ensure the target path has a leading slash. -/
def normUrl (url : String) : String :=
  if startsWithSlash url then url else "/" ++ url

/-- Embedding of HttpProxy.normalize_request (lines 91-104).  The
method first rewrites self.url to have a leading slash and then
overwrites request.path, request.path_info and request.META with the
normalized url.  The returned pair is (the new self.url, the mutated
request). -/
def normalize_request (url : String) (req : DjangoRequest) :
    String × DjangoRequest :=
  let u := normUrl url
  (u, { req with path := u, path_info := u, meta_path_info := u })

/-! ### URL composer (get_full_url, lines 154-161) -/

/-- Hexadecimal digit (uppercase), used by the percent encoder. -/
def hexDigit (n : Nat) : Char :=
  if n < 10 then Char.ofNat (48 + n) else Char.ofNat (55 + n)

/-- Characters that Django urlencode leaves unescaped (alphanumerics
and a few safe punctuation characters). -/
def isUrlSafe (c : Char) : Bool :=
  (Char.ofNat 97 ≤ c && c ≤ Char.ofNat 122) ||
  (Char.ofNat 65 ≤ c && c ≤ Char.ofNat 90) ||
  (Char.ofNat 48 ≤ c && c ≤ Char.ofNat 57) ||
  c = Char.ofNat 95 || c = Char.ofNat 46 || c = Char.ofNat 45 ||
  c = Char.ofNat 126

/-- Percent-encode one character. -/
def quoteChar (c : Char) : List Char :=
  if isUrlSafe c then [c]
  else [Char.ofNat 37, hexDigit (c.toNat / 16 % 16), hexDigit (c.toNat % 16)]

/-- Percent-encode a string. -/
def quoteStr (s : String) : String :=
  String.mk (s.data.foldr (fun c acc => quoteChar c ++ acc) [])

/-- Encode one query pair as key=value. -/
def encodePair (p : String × String) : String :=
  quoteStr p.1 ++ "=" ++ quoteStr p.2

/-- Model of django QueryDict.urlencode (an external collaborator):
the query pairs are encoded in order and joined with ampersands. -/
def urlencode : List (String × String) → String
  | [] => ""
  | [p] => encodePair p
  | p :: q :: rest => encodePair p ++ "&" ++ urlencode (q :: rest)

/-- Embedding of HttpProxy.get_full_url (lines 154-161): the base url
and the relative url are concatenated, and a question mark followed by
the urlencoded query string is appended only when the encoded query
string is non-empty (the truthiness test on param_str, line 160). -/
def get_full_url (base_url : String) (getParams : List (String × String))
    (url : String) : String :=
  let param_str := urlencode getParams
  let request_url := base_url ++ url
  if param_str = "" then request_url else request_url ++ "?" ++ param_str

/-! ### Response rewriter (REWRITE_REGEX, line 17; rewrite_response, lines 106-119)

REWRITE_REGEX is the compiled pattern ((?:src|action|href)=[quote])/(?!/)
where [quote] is the character class holding the double and the single
quote: group 1 is one of the attribute names src, action, href followed
by an equals sign and one quote character, then a literal slash that is
not followed by another slash.  REWRITE_REGEX.sub with the template
group1 ++ proxy_root ++ "/" scans the body left to right, replacing each
non-overlapping match and continuing after the replaced slash. -/

/-- The double or single quote character class of REWRITE_REGEX. -/
def isQuoteChar (c : Char) : Bool :=
  c = Char.ofNat 34 || c = Char.ofNat 39

/-- Negative lookahead of REWRITE_REGEX: the matched slash must not be
followed by another slash (it may be followed by nothing). -/
def noLeadSlash : List Char → Bool
  | '/' :: _ => false
  | _ => true

/-- Remove an expected literal from the front of a character list. -/
def dropLit : List Char → List Char → Option (List Char)
  | [], s => some s
  | _ :: _, [] => none
  | p :: ps, c :: cs => if c = p then dropLit ps cs else none

/-- The attribute-name alternatives of REWRITE_REGEX. -/
def srcA : List Char := ['s', 'r', 'c']

/-- The action alternative of REWRITE_REGEX. -/
def actionA : List Char := ['a', 'c', 't', 'i', 'o', 'n']

/-- The href alternative of REWRITE_REGEX. -/
def hrefA : List Char := ['h', 'r', 'e', 'f']

/-- Try to match REWRITE_REGEX at the head of s for one attribute
alternative: on success return (the text of group 1, the remainder of
the input after the matched slash). -/
def tryAttr (attr s : List Char) : Option (List Char × List Char) :=
  match dropLit (attr ++ ['=']) s with
  | some (q :: '/' :: rest) =>
    if isQuoteChar q && noLeadSlash rest then
      some (attr ++ ['=', q], rest)
    else none
  | _ => none

/-- Try to match REWRITE_REGEX at the head of s (the three alternatives
begin with distinct letters, so at most one can succeed). -/
def tryMatch (s : List Char) : Option (List Char × List Char) :=
  match tryAttr srcA s with
  | some r => some r
  | none =>
    match tryAttr actionA s with
    | some r => some r
    | none => tryAttr hrefA s

/-- One pass of REWRITE_REGEX.sub with replacement template
group1 ++ pre ++ "/", written with explicit fuel to keep the recursion
structural: scan left to right; at a match emit group 1, the inserted
prefix and the slash, and continue after the match; otherwise move one
character forward.  Every step consumes at least one input character,
so fuel equal to the input length always suffices; the fuel-exhausted
branch is unreachable from rewriteSub below (rewriteSubF_fuel makes
this precise). -/
def rewriteSubF : Nat → List Char → List Char → List Char
  | 0, _, s => s
  | _ + 1, _, [] => []
  | f + 1, pre, c :: cs =>
    match tryMatch (c :: cs) with
    | some (g, rest) => g ++ (pre ++ '/' :: rewriteSubF f pre rest)
    | none => c :: rewriteSubF f pre cs

/-- One pass of REWRITE_REGEX.sub over a character list. -/
def rewriteSub (pre s : List Char) : List Char :=
  rewriteSubF s.length pre s

/-- REWRITE_REGEX.sub at the level of strings. -/
def rewriteBody (pre content : String) : String :=
  String.mk (rewriteSub pre.data content.data)

/-- Rightmost index at which sep occurs in s (None when sep does not
occur); the index model of str.rsplit(sep, 1). -/
def rfind (sep : List Char) : List Char → Option Nat
  | [] => if sep.isPrefixOf ([] : List Char) then some 0 else none
  | c :: cs =>
    match rfind sep cs with
    | some i => some (i + 1)
    | none => if sep.isPrefixOf (c :: cs) then some 0 else none

/-- Model of s.rsplit(sep, 1)[0] for non-empty sep: the part of s
before the rightmost occurrence of sep, or all of s when sep does not
occur. -/
def rsplitBefore (s sep : List Char) : List Char :=
  match rfind sep s with
  | some i => s.take i
  | none => s

/-- String-level wrapper of rsplitBefore. -/
def rsplitBeforeStr (s sep : String) : String :=
  String.mk (rsplitBefore s.data sep.data)

/-- Embedding of HttpProxy.rewrite_response (lines 106-119):
proxy_root is original_request_path.rsplit(request.path, 1)[0] and the
response content is replaced by the REWRITE_REGEX substitution with the
template group1 ++ proxy_root ++ "/". -/
def rewrite_response (original_request_path : String) (req : DjangoRequest)
    (resp : DjHttpResponse) : DjHttpResponse :=
  let proxy_root := rsplitBeforeStr original_request_path req.path
  { resp with content := rewriteBody proxy_root resp.content }

/-! ### Recorder gateway (get_recorder / play / record, lines 121-140) -/

/-- Embedding of HttpProxy.get_recorder (lines 138-140).  Line 139 is
url = urllib.parse(self.base_url): urllib.parse names the module object
of the six.moves urllib compatibility package, and calling a module
object raises TypeError, so the ProxyRecorder is never constructed. -/
def get_recorder (base_url : String) : Except PyError Unit :=
  let _base := base_url
  Except.error PyError.typeErrorModuleNotCallable

/-- Key under which the external Recorder stores a pair.  Modelled from
the spec: httpproxy/recorder.py (ProxyRecorder) is not under src; per
spec section 4.4 and section 6 the key is derived from the method, the
normalized path and the query string. -/
def request_key (req : DjangoRequest) : String × String × String :=
  (req.method, req.path, urlencode req.query)

/-- The external Recorder storage, as an oracle from keys to stored
responses. -/
abbrev RecorderStore := String × String × String → Option DjHttpResponse

/-- Playback on the external Recorder.  Modelled from the spec:
httpproxy/recorder.py (ProxyRecorder.playback) is not under src; per
spec section 4.4 it returns the stored response for the request key and
fails with NotRecorded (RequestNotRecorded, an Http404, views.py
docstring lines 56-59) when no pair matches. -/
def recorder_playback (store : RecorderStore) (req : DjangoRequest) :
    Except PyError DjHttpResponse :=
  match store (request_key req) with
  | some r => Except.ok r
  | none => Except.error PyError.http404NotRecorded

/-- Embedding of HttpProxy.play (lines 121-128):
return self.get_recorder().playback(request).  get_recorder is
evaluated first; its TypeError propagates. -/
def play (base_url : String) (store : RecorderStore) (req : DjangoRequest) :
    Except PyError DjHttpResponse :=
  match get_recorder base_url with
  | Except.error e => Except.error e
  | Except.ok _ => recorder_playback store req

/-- Embedding of HttpProxy.record (lines 130-136):
self.get_recorder().record(self.request, response).  get_recorder is
evaluated first; its TypeError propagates.  On success the recorded
pair (key of the mutated self.request, the response as passed) would be
persisted; the pair is returned so that theorems can observe what was
stored (ProxyRecorder.record is modelled from the spec, section 4.4,
because httpproxy/recorder.py is not under src). -/
def record (base_url : String) (req : DjangoRequest) (resp : DjHttpResponse) :
    Except PyError ((String × String × String) × DjHttpResponse) :=
  match get_recorder base_url with
  | Except.error e => Except.error e
  | Except.ok _ => Except.ok (request_key req, resp)

/-! ### Upstream dispatcher (get / post / get_full_url / create_request /
get_response, lines 142-183) -/

/-- Lowercase a string (for the case-insensitive header lookup of the
requests response headers). -/
def lowerStr (s : String) : String :=
  String.mk (s.data.map Char.toLower)

/-- Case-insensitive lookup in an ordered header list, the model of
indexing a requests CaseInsensitiveDict (line 180). -/
def lookup_ci (k : String) : List (String × String) → Option String
  | [] => none
  | (k0, v0) :: rest => if lowerStr k0 = lowerStr k then some v0 else lookup_ci k rest

/-- Django HttpResponse header assignment resp[key] = value:
case-insensitive replace, appending when the header is new. -/
def set_header : List (String × String) → String → String → List (String × String)
  | [], k, v => [(k, v)]
  | (k0, v0) :: rest, k, v =>
    if lowerStr k0 = lowerStr k then (k, v) :: rest
    else (k0, v0) :: set_header rest k v

/-- Lines 181-182: for key, value in headers: resp[key] = value.
Iterating the header dict yields its keys, and each key string is
tuple-unpacked into (key, value); this succeeds only when the key has
exactly two characters (binding its two characters), and raises
ValueError otherwise.  The loop is vacuous for the empty header dict
that the GET path passes. -/
def header_copy_loop (resp : DjHttpResponse) :
    List (String × String) → Except PyError DjHttpResponse
  | [] => Except.ok resp
  | (k, _) :: rest =>
    match k.data with
    | [a, b] =>
      header_copy_loop
        { resp with headers := set_header resp.headers (String.mk [a]) (String.mk [b]) }
        rest
    | _ => Except.error PyError.valueErrorHeaderUnpack

/-- Embedding of the reply conversion of get_response (lines 176-183):
the HttpResponse is built from the raw reply content and status code
with content_type taken from the reply headers (KeyError when absent),
and then the header-copy loop over the headers argument (the outbound
request headers, not the reply headers) runs. -/
def convert_reply (reply : UpstreamReply) (headers : List (String × String)) :
    Except PyError DjHttpResponse :=
  match lookup_ci "content-type" reply.headers with
  | none => Except.error PyError.keyErrorContentType
  | some ct =>
    header_copy_loop
      { status := reply.status_code,
        headers := [("Content-Type", ct)],
        content := reply.content }
      headers

/-- Embedding of HttpProxy.get_response (lines 168-183).  The full url
is composed first (line 169); the body, when it is a byte string, is
left unchanged by the python-2 decode of lines 170-171; then line 172
calls self.create_request(request_url, body=body, headers=headers)
without the required positional argument method of create_request
(line 163), so the interpreter raises TypeError before any transport
call is made and before the reply conversion (embedded separately as
convert_reply) can run. -/
def get_response (base_url : String) (query : List (String × String))
    (url : String) (_method : String) (_body : Option String)
    (_headers : List (String × String)) : Except PyError DjHttpResponse :=
  let _request_url := get_full_url base_url query url
  Except.error PyError.typeErrorMissingMethodArg

/-- Embedding of HttpProxy.get (lines 142-143):
return self.get_response(method=GET) with the default body None and the
default empty header dict. -/
def get (base_url : String) (query : List (String × String)) (url : String) :
    Except PyError DjHttpResponse :=
  get_response base_url query url "GET" none []

/-! ### Proxy controller (dispatch, lines 73-89)

The verb handler invoked through super().dispatch (Django View.dispatch
routing to get or post) is a parameter, so the controller flow can be
stated both for the slipping concrete handler above and for an
arbitrary handler outcome.  The second component of the result is the
list of pairs persisted by the Recorder during the call. -/

def dispatch (cfg : HttpProxyConfig) (store : RecorderStore)
    (handler : DjangoRequest → Except PyError DjHttpResponse)
    (req : DjangoRequest) (url : String) :
    Except PyError DjHttpResponse ×
      List ((String × String × String) × DjHttpResponse) :=
  let original_request_path := req.path
  let norm := normalize_request url req
  let req1 := norm.2
  if cfg.mode = some "play" then
    match play cfg.base_url store req1 with
    | Except.error e => (Except.error e, [])
    | Except.ok resp =>
      if cfg.rewrite then
        (Except.ok (rewrite_response original_request_path req1 resp), [])
      else (Except.ok resp, [])
  else
    match handler req1 with
    | Except.error e => (Except.error e, [])
    | Except.ok resp =>
      if cfg.mode = some "record" then
        match record cfg.base_url req1 resp with
        | Except.error e => (Except.error e, [])
        | Except.ok pair =>
          if cfg.rewrite then
            (Except.ok (rewrite_response original_request_path req1 resp), [pair])
          else (Except.ok resp, [pair])
      else
        if cfg.rewrite then
          (Except.ok (rewrite_response original_request_path req1 resp), [])
        else (Except.ok resp, [])

/-! ## Helper lemmas -/

/-- The length of the equals-sign string. -/
theorem length_eq_sign : ("=" : String).length = 1 := rfl

/-- The length of the ampersand string. -/
theorem length_amp_sign : ("&" : String).length = 1 := rfl

/-- One encoded query pair has positive length (it always holds the
equals sign). -/
theorem encodePair_length_pos (p : String × String) :
    0 < (encodePair p).length := by
  have h2 : (encodePair p).length =
      (quoteStr p.1).length + ("=" : String).length + (quoteStr p.2).length := by
    simp [encodePair, String.length_append]
  rw [length_eq_sign] at h2
  omega

/-- The urlencoding of a non-empty query map has positive length. -/
theorem urlencode_length_pos (p : String × String)
    (ps : List (String × String)) : 0 < (urlencode (p :: ps)).length := by
  cases ps with
  | nil => exact encodePair_length_pos p
  | cons q rest =>
    have h2 : (urlencode (p :: q :: rest)).length =
        (encodePair p).length + ("&" : String).length +
          (urlencode (q :: rest)).length := by
      simp [urlencode, String.length_append]
    have := encodePair_length_pos p
    rw [length_amp_sign] at h2
    omega

/-- The urlencoding of a non-empty query map is a non-empty string. -/
theorem urlencode_ne_empty (p : String × String)
    (ps : List (String × String)) : urlencode (p :: ps) ≠ "" := by
  intro h
  have := urlencode_length_pos p ps
  rw [h] at this
  simp at this

/-- When rfind returns nothing, sep is a prefix of no suffix of s. -/
theorem rfind_eq_none (sep : List Char) (hne : sep ≠ []) :
    ∀ s : List Char, rfind sep s = none →
      ∀ j, sep.isPrefixOf (s.drop j) = false := by
  intro s
  induction s with
  | nil =>
    intro _ j
    rw [List.drop_nil]
    cases sep with
    | nil => exact absurd rfl hne
    | cons a as => rfl
  | cons c cs ih =>
    intro h j
    simp only [rfind] at h
    cases hr : rfind sep cs with
    | some i => rw [hr] at h; simp at h
    | none =>
      rw [hr] at h
      by_cases hp : sep.isPrefixOf (c :: cs) = true
      · rw [if_pos hp] at h; simp at h
      · cases j with
        | zero =>
          rw [List.drop_zero]
          exact Bool.eq_false_iff.mpr hp
        | succ j0 =>
          rw [List.drop_succ_cons]
          exact ih hr j0

/-- When rfind returns an index, sep occurs there and nowhere later:
the index is the rightmost occurrence of sep in s. -/
theorem rfind_eq_some (sep : List Char) (hne : sep ≠ []) :
    ∀ (s : List Char) (i : Nat), rfind sep s = some i →
      sep.isPrefixOf (s.drop i) = true ∧
        ∀ j, i < j → sep.isPrefixOf (s.drop j) = false := by
  intro s
  induction s with
  | nil =>
    intro i h
    simp only [rfind] at h
    cases sep with
    | nil => exact absurd rfl hne
    | cons a as => simp [List.isPrefixOf] at h
  | cons c cs ih =>
    intro i h
    simp only [rfind] at h
    cases hr : rfind sep cs with
    | some i0 =>
      rw [hr] at h
      simp at h
      subst h
      refine ⟨?_, ?_⟩
      · rw [List.drop_succ_cons]
        exact (ih i0 hr).1
      · intro j hj
        cases j with
        | zero => omega
        | succ j0 =>
          rw [List.drop_succ_cons]
          exact (ih i0 hr).2 j0 (by omega)
    | none =>
      rw [hr] at h
      by_cases hp : sep.isPrefixOf (c :: cs) = true
      · rw [if_pos hp] at h
        simp at h
        subst h
        refine ⟨by simpa using hp, ?_⟩
        intro j hj
        cases j with
        | zero => omega
        | succ j0 =>
          rw [List.drop_succ_cons]
          exact rfind_eq_none sep hne cs hr j0
      · rw [if_neg hp] at h
        simp at h

/-- Removing a literal succeeds exactly on an append decomposition. -/
theorem dropLit_eq_some :
    ∀ lit s r : List Char, dropLit lit s = some r → s = lit ++ r := by
  intro lit
  induction lit with
  | nil =>
    intro s r h
    simpa [dropLit] using h
  | cons p ps ih =>
    intro s r h
    cases s with
    | nil => simp [dropLit] at h
    | cons c cs =>
      simp only [dropLit] at h
      by_cases hc : c = p
      · rw [if_pos hc] at h
        rw [List.cons_append, ← ih cs r h, hc]
      · rw [if_neg hc] at h
        exact absurd h (by simp)

/-- dropLit applied to its own literal returns the remainder. -/
theorem dropLit_self : ∀ lit r : List Char, dropLit lit (lit ++ r) = some r := by
  intro lit
  induction lit with
  | nil => intro r; rfl
  | cons p ps ih => intro r; simp [dropLit, ih]

/-- Inversion for a successful single-alternative match of
REWRITE_REGEX: the input decomposes as the attribute name, the equals
sign, a quote, the slash and the remainder, the remainder does not
begin with a slash, and group 1 is the attribute name with the equals
sign and the quote. -/
theorem tryAttr_eq_some {attr s g rest : List Char}
    (h : tryAttr attr s = some (g, rest)) :
    ∃ q, isQuoteChar q = true ∧ noLeadSlash rest = true ∧
      g = attr ++ ['=', q] ∧ s = attr ++ '=' :: q :: '/' :: rest := by
  unfold tryAttr at h
  split at h
  · rename_i s1 q rest0 heq
    split at h
    · rename_i hcond
      rw [Bool.and_eq_true] at hcond
      obtain ⟨hq, hr⟩ := hcond
      have hpair := Option.some.inj h
      have hg : attr ++ ['=', q] = g := congrArg Prod.fst hpair
      have hrest : rest0 = rest := congrArg Prod.snd hpair
      subst hrest
      have hs := dropLit_eq_some _ _ _ heq
      refine ⟨q, hq, hr, hg.symm, ?_⟩
      rw [hs]
      simp
    · exact absurd h (by simp)
  · exact absurd h (by simp)

/-- A successful single-alternative match on an input of the matching
shape. -/
theorem tryAttr_mk (attr : List Char) {q : Char} {rest : List Char}
    (hq : isQuoteChar q = true) (hr : noLeadSlash rest = true) :
    tryAttr attr (attr ++ '=' :: q :: '/' :: rest)
      = some (attr ++ ['=', q], rest) := by
  unfold tryAttr
  rw [show attr ++ '=' :: q :: '/' :: rest
      = (attr ++ ['=']) ++ q :: '/' :: rest by simp]
  rw [dropLit_self]
  simp [hq, hr]

/-- Inversion for tryMatch: a match is a match of one of the three
attribute alternatives. -/
theorem tryMatch_eq_some {s g rest : List Char}
    (h : tryMatch s = some (g, rest)) :
    tryAttr srcA s = some (g, rest) ∨ tryAttr actionA s = some (g, rest)
      ∨ tryAttr hrefA s = some (g, rest) := by
  unfold tryMatch at h
  split at h
  · rename_i r heq
    rw [heq, h]
    exact Or.inl rfl
  · rename_i heq1
    split at h
    · rename_i r heq
      rw [heq, h]
      exact Or.inr (Or.inl rfl)
    · exact Or.inr (Or.inr h)

/-- A successful tryMatch decomposes the input as group 1 followed by
the matched slash and the remainder. -/
theorem tryMatch_shape {s g rest : List Char}
    (h : tryMatch s = some (g, rest)) : s = g ++ '/' :: rest := by
  rcases tryMatch_eq_some h with h1 | h1 | h1 <;>
    · obtain ⟨q, hq, hr, hg, hs⟩ := tryAttr_eq_some h1
      subst hg
      rw [hs]
      simp

/-- The scanner does not depend on the fuel once the fuel covers the
input length. -/
theorem rewriteSubF_fuel : ∀ (f1 f2 : Nat) (pre s : List Char),
    s.length ≤ f1 → s.length ≤ f2 →
    rewriteSubF f1 pre s = rewriteSubF f2 pre s := by
  intro f1
  induction f1 with
  | zero =>
    intro f2 pre s h1 _
    have hs : s = [] := List.eq_nil_of_length_eq_zero (Nat.le_zero.mp h1)
    subst hs
    cases f2 <;> rfl
  | succ f ih =>
    intro f2 pre s h1 h2
    cases s with
    | nil => cases f2 <;> rfl
    | cons c cs =>
      cases f2 with
      | zero => simp at h2
      | succ g2 =>
        simp only [rewriteSubF]
        cases hm : tryMatch (c :: cs) with
        | some pr =>
          obtain ⟨g, rest⟩ := pr
          have hshape := tryMatch_shape hm
          have hlen : rest.length < (c :: cs).length := by
            rw [hshape]
            simp
            omega
          simp only [List.length_cons] at h1 h2 hlen
          exact congrArg (fun t => g ++ (pre ++ '/' :: t))
            (ih g2 pre rest (by omega) (by omega))
        | none =>
          simp only [List.length_cons] at h1 h2
          exact congrArg (fun t => c :: t) (ih g2 pre cs (by omega) (by omega))

/-- At a position where REWRITE_REGEX matches, the scanner emits group
1 followed by the inserted prefix and the slash, and continues after
the match. -/
theorem rewriteSub_match (pre : List Char) {s g rest : List Char}
    (h : tryMatch s = some (g, rest)) :
    rewriteSub pre s = g ++ (pre ++ '/' :: rewriteSub pre rest) := by
  have hshape := tryMatch_shape h
  obtain ⟨c, cs, hcc⟩ : ∃ c cs, s = c :: cs := by
    cases s with
    | nil =>
      have := congrArg List.length hshape
      simp at this
      omega
    | cons c cs => exact ⟨c, cs, rfl⟩
  subst hcc
  show rewriteSubF (c :: cs).length pre (c :: cs) = _
  simp only [List.length_cons, rewriteSubF]
  rw [h]
  have hrest : rest.length ≤ cs.length := by
    have := congrArg List.length hshape
    simp at this
    omega
  exact congrArg (fun t => g ++ (pre ++ '/' :: t))
    (rewriteSubF_fuel cs.length rest.length pre rest hrest (Nat.le_refl _))

/-- At a position where REWRITE_REGEX does not match, the scanner
copies one character and moves on. -/
theorem rewriteSub_nomatch (pre : List Char) {c : Char} {cs : List Char}
    (h : tryMatch (c :: cs) = none) :
    rewriteSub pre (c :: cs) = c :: rewriteSub pre cs := by
  show rewriteSubF (c :: cs).length pre (c :: cs) = _
  simp only [List.length_cons, rewriteSubF]
  rw [h]
  rfl

/-! ## Claim theorems -/

/-- C6: for every target path P without a leading slash, normalize
produces the path slash ++ P; for every P already starting with a slash
normalize is idempotent; and normalize_request overwrites exactly the
path-related fields (path, path_info, META PATH_INFO, and self.url)
with the normalized url, leaving method, headers, body, query and the
content-type metadata untouched. -/
theorem C6_normalize_request (P url : String) (req : DjangoRequest) :
    (startsWithSlash P = false → normUrl P = "/" ++ P)
    ∧ (startsWithSlash P = true → normUrl (normUrl P) = normUrl P)
    ∧ (normalize_request url req).1 = normUrl url
    ∧ (normalize_request url req).2.path = normUrl url
    ∧ (normalize_request url req).2.path_info = normUrl url
    ∧ (normalize_request url req).2.meta_path_info = normUrl url
    ∧ (normalize_request url req).2.method = req.method
    ∧ (normalize_request url req).2.headers = req.headers
    ∧ (normalize_request url req).2.body = req.body
    ∧ (normalize_request url req).2.query = req.query
    ∧ (normalize_request url req).2.meta_content_type = req.meta_content_type := by
  refine ⟨?_, ?_, rfl, rfl, rfl, rfl, rfl, rfl, rfl, rfl, rfl⟩
  · intro h
    simp [normUrl, h]
  · intro h
    simp [normUrl, h]

/-- Witness for C6 at concrete paths. -/
theorem C6_witness :
    normUrl "a" = "/a" ∧ normUrl (normUrl "/b") = normUrl "/b" :=
  ⟨(C6_normalize_request "a" "x" ⟨"GET", "", "", "", [], [], "", none⟩).1
      (by decide),
   (C6_normalize_request "/b" "x" ⟨"GET", "", "", "", [], [], "", none⟩).2.1
      (by decide)⟩

/-- C1 counterexample: in play mode the controller does not convert the
per-request error into a response: dispatch at this concrete request
propagates an exception (here the TypeError raised inside get_recorder)
instead of returning a ProxyResponse-shaped value, so an exception does
escape past the dispatch entry point. -/
theorem C1_counterexample :
    (dispatch ⟨"http://example.com", some "play", false⟩ (fun _ => none)
        (fun _ => Except.ok ⟨200, [], "ok"⟩)
        ⟨"GET", "/proxy/missing", "/proxy/missing", "/proxy/missing",
          [], [], "", none⟩
        "missing").1
      = Except.error PyError.typeErrorModuleNotCallable := rfl

/-- C1 amended: per-request errors are not handled at the controller
boundary: dispatch propagates any handler error unchanged past its
entry point, and in play mode always lets the get_recorder TypeError
escape; no conversion to a response happens inside the controller. -/
theorem C1_errors_escape_dispatch (cfg : HttpProxyConfig)
    (store : RecorderStore)
    (handler : DjangoRequest → Except PyError DjHttpResponse)
    (req : DjangoRequest) (url : String) (e : PyError) :
    (cfg.mode ≠ some "play" →
      handler (normalize_request url req).2 = Except.error e →
      dispatch cfg store handler req url = (Except.error e, []))
    ∧ (cfg.mode = some "play" →
      dispatch cfg store handler req url =
        (Except.error PyError.typeErrorModuleNotCallable, [])) := by
  constructor
  · intro hm hh
    simp [dispatch, hm, hh]
  · intro hm
    simp [dispatch, hm, play, get_recorder]

/-- Witness for C1: a concrete handler error propagates out of
dispatch unchanged. -/
theorem C1_witness :
    dispatch ⟨"http://e", none, false⟩ (fun _ => none)
      (fun _ => Except.error PyError.keyErrorContentType)
      ⟨"GET", "/x", "/x", "/x", [], [], "", none⟩ "x"
      = (Except.error PyError.keyErrorContentType, []) :=
  (C1_errors_escape_dispatch ⟨"http://e", none, false⟩ (fun _ => none)
      (fun _ => Except.error PyError.keyErrorContentType)
      ⟨"GET", "/x", "/x", "/x", [], [], "", none⟩ "x"
      PyError.keyErrorContentType).1 (by decide) rfl

/-- C2 counterexample: the conversion of an upstream reply does not
preserve all upstream headers: at this concrete reply the extra
upstream header x-upstream is absent from the converted response, whose
header list holds only the content-type. -/
theorem C2_counterexample :
    convert_reply ⟨200, [("content-type", "text/html"), ("x-upstream", "1")],
        "body"⟩ []
      = Except.ok ⟨200, [("Content-Type", "text/html")], "body"⟩
    ∧ lookup_ci "x-upstream" [("Content-Type", "text/html")] = none :=
  ⟨rfl, rfl⟩

/-- C2 amended: the conversion preserves the status code and the exact
body bytes and propagates the upstream content-type header, but every
other upstream header is dropped: with the empty outbound header dict
of the GET path, the converted response carries exactly the one
Content-Type header. -/
theorem C2_conversion_keeps_status_body_ct (reply : UpstreamReply)
    (ct : String) (h : lookup_ci "content-type" reply.headers = some ct) :
    convert_reply reply [] =
      Except.ok ⟨reply.status_code, [("Content-Type", ct)], reply.content⟩ := by
  simp [convert_reply, h, header_copy_loop]

/-- Witness for C2 at a concrete reply. -/
theorem C2_witness :
    convert_reply ⟨204, [("Content-Type", "text/css")], "c"⟩ [] =
      Except.ok ⟨204, [("Content-Type", "text/css")], "c"⟩ :=
  C2_conversion_keeps_status_body_ct
    ⟨204, [("Content-Type", "text/css")], "c"⟩ "text/css" rfl

/-- C3: in play mode the upstream transport (the verb handler) is
indeed never invoked: the dispatch result is the same for every
handler.  But a playback miss does not fail with NotRecorded: the
TypeError raised at line 139 (urllib.parse, a module object, is called
as a function) escapes before the recorder is ever consulted, for
recorded and unrecorded keys alike, contradicting the documented
behaviour of the source (views.py lines 56-59). -/
theorem C3_play_mode_bug :
    (∀ h1 h2 : DjangoRequest → Except PyError DjHttpResponse,
      dispatch ⟨"http://example.com", some "play", false⟩ (fun _ => none) h1
        ⟨"GET", "/p/a", "/p/a", "/p/a", [], [], "", none⟩ "a"
      = dispatch ⟨"http://example.com", some "play", false⟩ (fun _ => none) h2
        ⟨"GET", "/p/a", "/p/a", "/p/a", [], [], "", none⟩ "a")
    ∧ (dispatch ⟨"http://example.com", some "play", false⟩ (fun _ => none)
        (fun _ => Except.error PyError.keyErrorContentType)
        ⟨"GET", "/p/a", "/p/a", "/p/a", [], [], "", none⟩ "a").1
      = Except.error PyError.typeErrorModuleNotCallable
    ∧ (Except.error PyError.typeErrorModuleNotCallable :
        Except PyError DjHttpResponse)
      ≠ Except.error PyError.http404NotRecorded := by
  refine ⟨fun h1 h2 => rfl, rfl, ?_⟩
  intro h
  exact PyError.noConfusion (Except.error.inj h)

/-- C8 counterexample: an invalid base url (no scheme, no host) does
not prevent the proxy from accepting requests: dispatch serves this
concrete request normally, and the per-request URL composition runs
with the host-less base url. -/
theorem C8_counterexample :
    dispatch ⟨"/no-host", none, false⟩ (fun _ => none)
        (fun _ => Except.ok ⟨200, [], "ok"⟩)
        ⟨"GET", "/index.html", "/index.html", "/index.html", [], [], "", none⟩
        "index.html"
      = (Except.ok ⟨200, [], "ok"⟩, [])
    ∧ get_full_url "/no-host" [] "/index.html" = "/no-host/index.html" :=
  ⟨rfl, rfl⟩

/-- C8 amended: no validation of the base url happens at configuration
time; the base_url attribute is stored verbatim and the proxy performs
per-request work with every base url string, however malformed: in the
default mode a request is served whenever the handler succeeds,
independently of the base url. -/
theorem C8_no_config_time_validation (B : String) (store : RecorderStore)
    (handler : DjangoRequest → Except PyError DjHttpResponse)
    (req : DjangoRequest) (url : String) (r : DjHttpResponse)
    (h : handler (normalize_request url req).2 = Except.ok r) :
    dispatch ⟨B, none, false⟩ store handler req url = (Except.ok r, []) := by
  simp [dispatch, h]

/-- Witness for C8 with a base url that has no host. -/
theorem C8_witness :
    dispatch ⟨"not-a-url", none, false⟩ (fun _ => none)
      (fun _ => Except.ok ⟨200, [], "b"⟩)
      ⟨"GET", "/a", "/a", "/a", [], [], "", none⟩ "a"
      = (Except.ok ⟨200, [], "b"⟩, []) :=
  C8_no_config_time_validation "not-a-url" (fun _ => none)
    (fun _ => Except.ok ⟨200, [], "b"⟩)
    ⟨"GET", "/a", "/a", "/a", [], [], "", none⟩ "a" ⟨200, [], "b"⟩ rfl

/-- C9: in record mode the controller does call record before
rewrite_response (dispatch lines 84-89), but record never completes:
even when the verb handler returns a response, get_recorder raises a
TypeError (line 139), so no pair is stored and the exception escapes
instead of the rewritten response reaching the caller.  At this
concrete record-mode request with rewrite enabled the recorded-pair
list is empty and the result is the TypeError. -/
theorem C9_record_mode_bug :
    dispatch ⟨"http://example.com", some "record", true⟩ (fun _ => none)
      (fun _ => Except.ok
        ⟨200, [("Content-Type", "text/html")], "<img src=\"/a.png\">"⟩)
      ⟨"GET", "/proxy/a", "/proxy/a", "/proxy/a", [], [], "", none⟩ "a"
      = (Except.error PyError.typeErrorModuleNotCallable, []) := rfl

/-- C10: the GET path intends to build the outbound request with no
body and an empty header dict (get, lines 142-143, passes the defaults
body=None, headers={}), but no outbound request is ever built: for
every base url, query and target url, get_response raises a TypeError
at line 172 because create_request is called without its required
positional argument method (and the POST path, line 152, holds an
unterminated string literal, so it cannot run at all). -/
theorem C10_get_bug (B : String) (Q : List (String × String)) (U : String) :
    get B Q U = Except.error PyError.typeErrorMissingMethodArg := rfl

/-- C7: the composed upstream url starts with the base url B, holds the
relative path P immediately after B, and ends with a question mark
followed by the urlencoded query exactly when the query map Q is
non-empty; when Q is empty the result is exactly B ++ P, so no question
mark appears beyond any that B or P themselves contain (a base url is
an absolute origin and a relative path carries no query, so neither
holds a question mark); and the encoding preserves query order: the
encoding of a concatenation is the concatenation of the encodings. -/
theorem C7_get_full_url (B P : String) (Q : List (String × String)) :
    (Q = [] → get_full_url B Q P = B ++ P)
    ∧ (Q ≠ [] → get_full_url B Q P = ((B ++ P) ++ "?") ++ urlencode Q)
    ∧ (Q = [] → ¬ '?' ∈ B.data → ¬ '?' ∈ P.data →
        ¬ '?' ∈ (get_full_url B Q P).data)
    ∧ (∀ Q2, Q ≠ [] → Q2 ≠ [] →
        urlencode (Q ++ Q2) = (urlencode Q ++ "&") ++ urlencode Q2) := by
  refine ⟨?_, ?_, ?_, ?_⟩
  · intro h
    subst h
    simp [get_full_url, urlencode]
  · intro h
    cases Q with
    | nil => exact absurd rfl h
    | cons p ps =>
      simp [get_full_url, urlencode_ne_empty p ps]
  · intro h hB hP hmem
    subst h
    simp [get_full_url, urlencode, String.data_append, List.mem_append] at hmem
    rcases hmem with hc | hc
    · exact hB hc
    · exact hP hc
  · intro Q2 hQ hQ2
    induction Q with
    | nil => exact absurd rfl hQ
    | cons p ps ih =>
      cases ps with
      | nil =>
        cases Q2 with
        | nil => exact absurd rfl hQ2
        | cons q2 rest2 =>
          simp [urlencode, String.append_assoc]
      | cons q rest =>
        have hstep : urlencode ((p :: q :: rest) ++ Q2)
            = encodePair p ++ "&" ++ urlencode ((q :: rest) ++ Q2) := by
          cases Q2 with
          | nil => exact absurd rfl hQ2
          | cons q2 rest2 => simp [urlencode]
        rw [hstep, ih (by simp)]
        simp [urlencode, String.append_assoc]

/-- Witness for C7 at a concrete base url, path, and query. -/
theorem C7_witness :
    get_full_url "http://origin.test" [("a", "b")] "/index.html"
      = (("http://origin.test" ++ "/index.html") ++ "?")
          ++ urlencode [("a", "b")] :=
  (C7_get_full_url "http://origin.test" "/index.html" [("a", "b")]).2.1
    (by decide)

/-- C5: the mount prefix used by the rewriter is exactly
original_request_path.rsplit(request.path, 1)[0], and this rsplit model
is the portion of the original path before the rightmost occurrence of
the normalized path: either the normalized path occurs, the original
path decomposes as prefix ++ normalized ++ suffix, and no occurrence
starts after the prefix; or the normalized path does not occur anywhere
and the whole original path is returned. -/
theorem C5_proxy_root (orig norm : List Char) (op : String)
    (req : DjangoRequest) (resp : DjHttpResponse) (hne : norm ≠ []) :
    ((rewrite_response op req resp).content
        = rewriteBody (rsplitBeforeStr op req.path) resp.content)
    ∧ ((∃ suf, orig = rsplitBefore orig norm ++ (norm ++ suf)
          ∧ ∀ j, (rsplitBefore orig norm).length < j →
              ¬ norm <+: orig.drop j)
       ∨ (rsplitBefore orig norm = orig
          ∧ ∀ j, ¬ norm <+: orig.drop j)) := by
  refine ⟨rfl, ?_⟩
  cases hr : rfind norm orig with
  | none =>
    right
    refine ⟨by simp [rsplitBefore, hr], ?_⟩
    intro j hp
    have hfalse := rfind_eq_none norm hne orig hr j
    rw [← List.isPrefixOf_iff_prefix] at hp
    rw [hfalse] at hp
    exact Bool.false_ne_true hp
  | some i =>
    left
    have h1 := (rfind_eq_some norm hne orig i hr).1
    have h2 := (rfind_eq_some norm hne orig i hr).2
    have hpre : norm <+: orig.drop i := List.isPrefixOf_iff_prefix.mp h1
    obtain ⟨suf, hsuf⟩ := hpre
    have hb : rsplitBefore orig norm = orig.take i := by
      simp [rsplitBefore, hr]
    have hdrop_ne : orig.drop i ≠ [] := by
      intro h0
      rw [h0] at hsuf
      exact hne (List.append_eq_nil.mp hsuf).1
    have hlen : i < orig.length := by
      by_contra hge
      push_neg at hge
      exact hdrop_ne (List.drop_eq_nil_of_le hge)
    have hti : (rsplitBefore orig norm).length = i := by
      rw [hb, List.length_take]
      omega
    refine ⟨suf, ?_, ?_⟩
    · rw [hb, hsuf]
      exact (List.take_append_drop i orig).symm
    · intro j hj hcon
      rw [hti] at hj
      have hfalse := h2 j hj
      rw [← List.isPrefixOf_iff_prefix] at hcon
      rw [hfalse] at hcon
      exact Bool.false_ne_true hcon

/-- Witness for C5 at a concrete original path and normalized path. -/
theorem C5_witness :
    ((rewrite_response "/p/a" ⟨"GET", "/a", "/a", "/a", [], [], "", none⟩
        ⟨200, [], "x"⟩).content
      = rewriteBody (rsplitBeforeStr "/p/a" "/a") "x")
    ∧ ((∃ suf, ['/', 'p', '/', 'a']
            = rsplitBefore ['/', 'p', '/', 'a'] ['/', 'a'] ++ (['/', 'a'] ++ suf)
          ∧ ∀ j, (rsplitBefore ['/', 'p', '/', 'a'] ['/', 'a']).length < j →
              ¬ ['/', 'a'] <+: (['/', 'p', '/', 'a'].drop j))
       ∨ (rsplitBefore ['/', 'p', '/', 'a'] ['/', 'a'] = ['/', 'p', '/', 'a']
          ∧ ∀ j, ¬ ['/', 'a'] <+: (['/', 'p', '/', 'a'].drop j))) :=
  C5_proxy_root ['/', 'p', '/', 'a'] ['/', 'a'] "/p/a"
    ⟨"GET", "/a", "/a", "/a", [], [], "", none⟩ ⟨200, [], "x"⟩ (by decide)

/-- C4: the rewrite replaces each occurrence of a src, href or action
attribute (case-sensitive, single or double quote) whose value starts
with a single slash not followed by another slash, by inserting the
prefix before that slash (first conjunct: at the leftmost match the
scanner emits the text before the match unchanged, then group 1, the
prefix and the slash, and continues after the match); any body without
such an occurrence, in particular one whose attribute values are
protocol-relative, is left unchanged (second conjunct); and the two
concrete examples of the claim hold (third and fourth conjuncts). -/
theorem C4_rewrite (pre A g1 rest body : List Char) :
    (tryMatch (g1 ++ '/' :: rest) = some (g1, rest) →
      (∀ i ∈ List.range A.length,
        tryMatch ((A ++ (g1 ++ '/' :: rest)).drop i) = none) →
      rewriteSub pre (A ++ (g1 ++ '/' :: rest))
        = A ++ (g1 ++ (pre ++ '/' :: rewriteSub pre rest)))
    ∧ ((∀ i ∈ List.range body.length, tryMatch (body.drop i) = none) →
      rewriteSub pre body = body)
    ∧ rewriteBody "/proxy" "<img src=\"/a.png\">" = "<img src=\"/proxy/a.png\">"
    ∧ rewriteBody "/proxy" "<a href=\"//other.com/x\">"
        = "<a href=\"//other.com/x\">" := by
  refine ⟨?_, ?_, by decide, by decide⟩
  · intro h1
    induction A with
    | nil =>
      intro _
      simpa using rewriteSub_match pre h1
    | cons a A ih =>
      intro h2
      have h0 : tryMatch (a :: (A ++ (g1 ++ '/' :: rest))) = none := by
        have := h2 0 (by simp)
        simpa using this
      have hshift : ∀ i ∈ List.range A.length,
          tryMatch ((A ++ (g1 ++ '/' :: rest)).drop i) = none := by
        intro i hi
        have hi2 : i + 1 ∈ List.range (a :: A).length := by
          simp at hi ⊢
          omega
        have := h2 (i + 1) hi2
        simpa using this
      calc rewriteSub pre ((a :: A) ++ (g1 ++ '/' :: rest))
          = a :: rewriteSub pre (A ++ (g1 ++ '/' :: rest)) := by
            simpa using rewriteSub_nomatch pre h0
        _ = a :: (A ++ (g1 ++ (pre ++ '/' :: rewriteSub pre rest))) := by
            rw [ih hshift]
        _ = (a :: A) ++ (g1 ++ (pre ++ '/' :: rewriteSub pre rest)) := rfl
  · induction body with
    | nil =>
      intro _
      rfl
    | cons c cs ih =>
      intro h2
      have h0 : tryMatch (c :: cs) = none := by
        have := h2 0 (by simp)
        simpa using this
      have hshift : ∀ i ∈ List.range cs.length,
          tryMatch (cs.drop i) = none := by
        intro i hi
        have hi2 : i + 1 ∈ List.range (c :: cs).length := by
          simp at hi ⊢
          omega
        have := h2 (i + 1) hi2
        simpa using this
      rw [rewriteSub_nomatch pre h0, ih hshift]

/-- Witness for C4: the leftmost-match step at a concrete body made of
one leading character, a src attribute with a double quote, and a
one-character remainder. -/
theorem C4_witness :
    rewriteSub ['/', 'p']
        (['<'] ++ (['s', 'r', 'c', '=', Char.ofNat 34] ++ '/' :: ['x']))
      = ['<'] ++ (['s', 'r', 'c', '=', Char.ofNat 34]
          ++ (['/', 'p'] ++ '/' :: rewriteSub ['/', 'p'] ['x'])) :=
  (C4_rewrite ['/', 'p'] ['<'] ['s', 'r', 'c', '=', Char.ofNat 34] ['x'] []).1
    (by decide) (by decide)

end HttpProxyModel
